import Mathlib

/-!
Verification of the Pulse-AI clinical note parser and triage rule engine.

The Python source (src/utils/parser.py, src/api/main.py) is shallowly
embedded here.  Text is `List Char`; the Python regular expressions used by
the parser are embedded by a list-of-successes matcher covering exactly the
regex constructs those patterns use (literals, character classes, greedy and
lazy repetition, optional atoms, capture groups, alternation and word
boundaries), with the same backtracking priority order as the Python `re`
engine (leftmost match position wins, alternatives tried left to right,
greedy repetition longest first, lazy repetition shortest first).  Python
floats are modelled as exact rationals; `round(x, n)` is modelled as
rounding to the nearest multiple of 10^-n (Python rounds ties to even, which
differs only at exact ties, none of which arise in the developments below).
The input texts are ASCII; `str.lower` and the character classes are
embedded at their ASCII meaning.
-/

namespace PulseAI

/-- Python regex class \s restricted to ASCII. -/
def isSpaceC (c : Char) : Bool :=
  c = ' ' || c = '\t' || c = '\n' || c = '\r' || c = '\x0b' || c = '\x0c'

/-- Python regex class \w restricted to ASCII. -/
def isWordC (c : Char) : Bool := c.isAlphanum || c = '_'

/-- Class [:\s] used by several vital-sign patterns. -/
def isColonSpace (c : Char) : Bool := c = ':' || isSpaceC c

/-- Regex `.` : any character except newline. -/
def isNotNL (c : Char) : Bool := !(c = '\n')

/-- Class [^.,] used by the condition patterns. -/
def isNotDotComma (c : Char) : Bool := !(c = '.' || c = ',')

/-- Class [^.] used by the symptom narrative patterns. -/
def isNotDot (c : Char) : Bool := !(c = '.')

/-- ASCII lowering, the embedding of Python str.lower on ASCII text. -/
def toLowerL (l : List Char) : List Char := l.map Char.toLower

/-- Embedding of the Python substring operator `needle in hay`. -/
def containsSub (needle : List Char) : List Char → Bool
  | [] => needle.isEmpty
  | c :: t => needle.isPrefixOf (c :: t) || containsSub needle t

/-- Capture groups of one regex match, in order of the opening parentheses. -/
abbrev Caps := List (List Char)

/-- A pattern denotes, at a fixed start position, the list of possible
matches in backtracking priority order; each match carries its capture
groups and the remaining input. -/
abbrev P := List Char → List (Caps × List Char)

/-- The empty pattern. -/
def pEps : P := fun t => [([], t)]

/-- A literal string. -/
def pLit (s : List Char) : P := fun t =>
  if s.isPrefixOf t then [([], t.drop s.length)] else []

/-- A single character from a class. -/
def pCls (f : Char → Bool) : P := fun t =>
  match t with
  | [] => []
  | c :: t2 => if f c then [([], t2)] else []

/-- Sequencing; enumerates in lexicographic backtracking order. -/
def pSeq (a b : P) : P := fun t =>
  (a t).flatMap (fun r1 => (b r1.2).map (fun r2 => (r1.1 ++ r2.1, r2.2)))

/-- Alternation, left alternative preferred. -/
def pAlt (a b : P) : P := fun t => a t ++ b t

/-- Optional atom `a?`, greedy: presence preferred. -/
def pOpt (a : P) : P := pAlt a pEps

/-- Greedy class repetition `f*`: longest first. -/
def pStarG (f : Char → Bool) : P := fun t =>
  let k := (t.takeWhile f).length
  (List.range (k + 1)).map (fun i => ([], t.drop (k - i)))

/-- Lazy class repetition `f*?`: shortest first. -/
def pStarL (f : Char → Bool) : P := fun t =>
  let k := (t.takeWhile f).length
  (List.range (k + 1)).map (fun i => ([], t.drop i))

/-- Greedy class repetition `f+`. -/
def pPlusG (f : Char → Bool) : P := pSeq (pCls f) (pStarG f)

/-- Greedy counted class repetition `f{lo,hi}`: as many as possible first. -/
def pRepG (f : Char → Bool) (lo hi : Nat) : P := fun t =>
  let k := min (t.takeWhile f).length hi
  if k < lo then []
  else (List.range (k - lo + 1)).map (fun i => ([], t.drop (k - i)))

/-- Capture group around a pattern. -/
def pCap (a : P) : P := fun t =>
  (a t).map (fun r => (r.1 ++ [t.take (t.length - r.2.length)], r.2))

/-- Right-nested sequencing of a pattern list. -/
def pSeqs : List P → P
  | [] => pEps
  | [p] => p
  | p :: q :: ps => pSeq p (pSeqs (q :: ps))

/-- Embedding of re.search: try each successive start position, return the
captures of the first (leftmost, highest-priority) match. -/
def searchP (p : P) : List Char → Option Caps
  | [] =>
    match p [] with
    | r :: _ => some r.1
    | [] => none
  | c :: t2 =>
    match p (c :: t2) with
    | r :: _ => some r.1
    | [] => searchP p t2

/-- Embedding of re.search for the gender patterns, which are bracketed by
word boundaries \b; the pattern body starts and ends with word characters,
so the boundary holds exactly when the preceding character (tracked in
`prev`) and the character following the match are absent or non-word.  The
trailing (?!\w) of the second gender pattern imposes the same condition as
its trailing \b. -/
def searchBdry (p : P) : Option Char → List Char → Option Caps
  | prev, t =>
    let okPrev : Bool :=
      match prev with
      | none => true
      | some c => !(isWordC c)
    let here : Option Caps :=
      if okPrev then
        match (p t).filter
            (fun r =>
              match r.2 with
              | [] => true
              | c :: _ => !(isWordC c)) with
        | r :: _ => some r.1
        | [] => none
      else none
    match here with
    | some cs => some cs
    | none =>
      match t with
      | [] => none
      | c :: t2 => searchBdry p (some c) t2

/-- Recursion core of findAll; the fuel argument (kept at least the length
of the text, which strictly decreases at every step) makes the recursion
structural so that it stays kernel-computable. -/
def findAllAux (p : P) : ℕ → List Char → List Caps
  | 0, _ => []
  | _ + 1, [] => []
  | fuel + 1, c :: t2 =>
    match p (c :: t2) with
    | r :: _ =>
      if r.2.length < t2.length + 1 then r.1 :: findAllAux p fuel r.2
      else r.1 :: findAllAux p fuel t2
    | [] => findAllAux p fuel t2

/-- Embedding of re.findall restricted to patterns that always consume at
least one character (all the condition patterns do): collect the captures of
every non-overlapping match from the left. -/
def findAll (p : P) (t : List Char) : List Caps := findAllAux p t.length t

/-- Numeric value of a digit string. -/
def digitsVal (s : List Char) : ℕ :=
  s.foldl (fun a c => 10 * a + (c.toNat - 48)) 0

/-- Embedding of Python int() on a captured group; None models the caught
ValueError for a malformed capture. -/
def parseIntL (s : List Char) : Option ℕ :=
  if s.isEmpty then none
  else if s.all Char.isDigit then some (digitsVal s)
  else none

/-- Embedding of Python float() on a captured group of shape digits,
optionally followed by a dot and further digits; None models the caught
ValueError. -/
def parseQL (s : List Char) : Option ℚ :=
  let ip := s.takeWhile Char.isDigit
  let rest := s.drop ip.length
  if ip.isEmpty then none
  else
    match rest with
    | [] => some (mkRat (Int.ofNat (digitsVal ip)) 1)
    | c :: fp =>
      if c = '.' && fp.all Char.isDigit then
        some (mkRat (Int.ofNat (digitsVal ip * 10 ^ fp.length + digitsVal fp)) (10 ^ fp.length))
      else none

/-- round (k * q) to the nearest integer, ties going up: the floor of
k * q + 1/2 computed by integer floor division on the numerator and
denominator (the rational field operations of this Mathlib version are
irreducible, so the arithmetic is kept on ℤ to stay kernel-computable). -/
def roundMulHalfUp (k : ℤ) (q : ℚ) : ℤ :=
  Int.ediv (2 * (k * q.num) + (q.den : ℤ)) (2 * (q.den : ℤ))

/-- Embedding of Python round(x, 1) (ties, which never arise below, go up
rather than to even). -/
def round1 (q : ℚ) : ℚ := mkRat (roundMulHalfUp 10 q) 10

/-- Embedding of Python round(x, 3) (same remark on ties). -/
def round3 (q : ℚ) : ℚ := mkRat (roundMulHalfUp 1000 q) 1000

/-- The Fahrenheit-to-Celsius conversion (temp - 32) * 5 / 9 of the source,
computed on the numerator and denominator (see roundMulHalfUp). -/
def celsiusOfF (q : ℚ) : ℚ := mkRat ((q.num - 32 * (q.den : ℤ)) * 5) (9 * q.den)

/-- The numeral \d{2,3} with a capture group. -/
def d23 : P := pCap (pRepG Char.isDigit 2 3)

/-- The numeral \d{1,3} with a capture group. -/
def d13 : P := pCap (pRepG Char.isDigit 1 3)

/-- The temperature numeral \d{2,3}\.?\d? . -/
def tnum : P :=
  pSeqs [pRepG Char.isDigit 2 3, pOpt (pLit (".".toList)), pOpt (pCls Char.isDigit)]

/-- The heart-rate pattern list of ClinicalNoteParser, lowered (the parser
searches the lowercased text with re.IGNORECASE). -/
def hrPatterns : List P :=
  [ pSeqs [pLit ("hr".toList), pPlusG isColonSpace, d23],
    pSeqs [pLit ("heart rate".toList), pPlusG isColonSpace, d23],
    pSeqs [pLit ("pulse".toList), pPlusG isColonSpace, d23],
    pSeqs [d23, pStarG isSpaceC, pLit ("bpm".toList)],
    pSeqs [pLit ("hr".toList), pStarG isSpaceC, pLit ("=".toList), pStarG isSpaceC, d23] ]

/-- The systolic/diastolic pair (\d{2,3})/(\d{2,3}). -/
def bpPair : P := pSeqs [d23, pLit ("/".toList), d23]

/-- The blood-pressure pattern list. -/
def bpPatterns : List P :=
  [ pSeqs [pLit ("bp".toList), pPlusG isColonSpace, bpPair],
    pSeqs [pLit ("blood pressure".toList), pPlusG isColonSpace, bpPair],
    pSeqs [bpPair, pStarG isSpaceC, pLit ("mmhg".toList)],
    pSeqs [pLit ("bp".toList), pStarG isSpaceC, pLit ("=".toList), pStarG isSpaceC, bpPair] ]

/-- The temperature pattern list. -/
def tempPatterns : List P :=
  [ pSeqs [pLit ("temp".toList), pPlusG isColonSpace, pCap tnum],
    pSeqs [pLit ("temperature".toList), pPlusG isColonSpace, pCap tnum],
    pSeqs [pCap tnum, pStarG isSpaceC, pOpt (pLit ("°".toList)), pLit ("c".toList)],
    pSeqs [pLit ("t".toList), pStarG isSpaceC, pLit ("=".toList), pStarG isSpaceC, pCap tnum],
    pSeqs [pLit ("febrile".toList), pStarL isNotNL, pCap tnum] ]

/-- The SpO2 pattern list. -/
def spo2Patterns : List P :=
  [ pSeqs [pLit ("spo2".toList), pPlusG isColonSpace, d23],
    pSeqs [pLit ("o2 sat".toList), pPlusG isColonSpace, d23],
    pSeqs [pLit ("oxygen saturation".toList), pPlusG isColonSpace, d23],
    pSeqs [pLit ("sat".toList), pPlusG isColonSpace, d23, pLit ("%".toList)],
    pSeqs [pLit ("spo2".toList), pStarG isSpaceC, pLit ("=".toList), pStarG isSpaceC, d23] ]

/-- The age pattern list. -/
def agePatterns : List P :=
  [ pSeqs [d13, pStarG isSpaceC, pLit ("y".toList), pOpt (pLit ("/".toList)), pLit ("o".toList)],
    pSeqs [d13, pStarG isSpaceC, pLit ("year".toList)],
    pSeqs [pLit ("age".toList), pPlusG isColonSpace, d13],
    pSeqs [d13, pLit ("-year-old".toList)] ]

/-- First gender pattern \b(male|female|man|woman)\b (body, boundaries
handled by searchBdry). -/
def genderP1 : P :=
  pCap (pAlt (pLit ("male".toList))
    (pAlt (pLit ("female".toList)) (pAlt (pLit ("man".toList)) (pLit ("woman".toList)))))

/-- Second gender pattern \b(m|f)\b(?!\w) (body, boundaries handled by
searchBdry). -/
def genderP2 : P := pCap (pAlt (pLit ("m".toList)) (pLit ("f".toList)))

/-- The extracted vital-sign record, the vitals dictionary of
extract_vitals_from_note. -/
structure VitalsE where
  heart_rate : Option ℚ
  sbp : Option ℚ
  dbp : Option ℚ
  temp_c : Option ℚ
  spo2 : Option ℚ
deriving DecidableEq, Repr

/-- The extracted demographics dictionary. -/
structure DemographicsE where
  age : Option ℕ
  gender : Option (List Char)
deriving DecidableEq, Repr

/-- The heart-rate extraction loop: first pattern whose first match parses
and passes 30 <= hr <= 200 wins; a failing candidate falls through to the
next pattern. -/
def hrLoop : List P → List Char → Option ℕ
  | [], _ => none
  | p :: ps, t =>
    match searchP p t with
    | none => hrLoop ps t
    | some caps =>
      match caps.head? with
      | none => hrLoop ps t
      | some g =>
        match parseIntL g with
        | none => hrLoop ps t
        | some hr => if 30 ≤ hr ∧ hr ≤ 200 then some hr else hrLoop ps t

/-- The blood-pressure extraction loop: a matched pair is accepted only if
both legs parse, 60 <= sbp <= 250, 40 <= dbp <= 150 and sbp > dbp;
otherwise the whole pair is discarded and the next pattern is tried. -/
def bpLoop : List P → List Char → Option (ℕ × ℕ)
  | [], _ => none
  | p :: ps, t =>
    match searchP p t with
    | none => bpLoop ps t
    | some caps =>
      match caps with
      | g1 :: g2 :: _ =>
        match parseIntL g1, parseIntL g2 with
        | some s, some d =>
          if 60 ≤ s ∧ s ≤ 250 ∧ 40 ≤ d ∧ d ≤ 150 ∧ d < s then some (s, d)
          else bpLoop ps t
        | _, _ => bpLoop ps t
      | _ => bpLoop ps t

/-- The temperature extraction loop: a captured numeral is accepted directly
in the Celsius band [35, 42], converted by (F - 32) * 5 / 9 and rounded to
one decimal in the Fahrenheit band [95, 107], and otherwise dropped in
favour of the next pattern. -/
def tempLoop : List P → List Char → Option ℚ
  | [], _ => none
  | p :: ps, t =>
    match searchP p t with
    | none => tempLoop ps t
    | some caps =>
      match caps.head? with
      | none => tempLoop ps t
      | some g =>
        match parseQL g with
        | none => tempLoop ps t
        | some q =>
          if 35 ≤ q ∧ q ≤ 42 then some q
          else if 95 ≤ q ∧ q ≤ 107 then some (round1 (celsiusOfF q))
          else tempLoop ps t

/-- The SpO2 extraction loop with validation 70 <= spo2 <= 100. -/
def spo2Loop : List P → List Char → Option ℕ
  | [], _ => none
  | p :: ps, t =>
    match searchP p t with
    | none => spo2Loop ps t
    | some caps =>
      match caps.head? with
      | none => spo2Loop ps t
      | some g =>
        match parseIntL g with
        | none => spo2Loop ps t
        | some s => if 70 ≤ s ∧ s ≤ 100 then some s else spo2Loop ps t

/-- The age extraction loop with validation 0 <= age <= 120. -/
def ageLoop : List P → List Char → Option ℕ
  | [], _ => none
  | p :: ps, t =>
    match searchP p t with
    | none => ageLoop ps t
    | some caps =>
      match caps.head? with
      | none => ageLoop ps t
      | some g =>
        match parseIntL g with
        | none => ageLoop ps t
        | some a => if a ≤ 120 then some a else ageLoop ps t

/-- The gender extraction loop: on the first pattern with a match the loop
ends, normalising the capture to Male or Female. -/
def genderLoop : List P → List Char → Option (List Char)
  | [], _ => none
  | p :: ps, t =>
    match searchBdry p none t with
    | none => genderLoop ps t
    | some caps =>
      match caps.head? with
      | none => none
      | some g =>
        let gl := toLowerL g
        if gl = "male".toList ∨ gl = "man".toList ∨ gl = "m".toList then
          some ("Male".toList)
        else if gl = "female".toList ∨ gl = "woman".toList ∨ gl = "f".toList then
          some ("Female".toList)
        else none

/-- Embedding of ClinicalNoteParser.extract_vitals_from_note: lowercase the
text, then fill the vitals dictionary field group by field group. -/
def extract_vitals_from_note (t0 : List Char) : VitalsE :=
  let tl := toLowerL t0
  let v0 : VitalsE := ⟨none, none, none, none, none⟩
  let v1 :=
    match hrLoop hrPatterns tl with
    | some hr => { v0 with heart_rate := some (hr : ℚ) }
    | none => v0
  let v2 :=
    match bpLoop bpPatterns tl with
    | some sd => { v1 with sbp := some (sd.1 : ℚ), dbp := some (sd.2 : ℚ) }
    | none => v1
  let v3 :=
    match tempLoop tempPatterns tl with
    | some q => { v2 with temp_c := some q }
    | none => v2
  match spo2Loop spo2Patterns tl with
  | some s => { v3 with spo2 := some (s : ℚ) }
  | none => v3

/-- Embedding of ClinicalNoteParser.extract_demographics. -/
def extract_demographics (t0 : List Char) : DemographicsE :=
  let tl := toLowerL t0
  { age := ageLoop agePatterns tl,
    gender := genderLoop [genderP1, genderP2] tl }

end PulseAI


namespace PulseAI

/-- The condition lexicon of extract_medical_history, in source order. -/
def conditionKeywords : List (List Char × List (List Char)) :=
  [ ("hypertension".toList, ["hypertension".toList, "htn".toList, "high blood pressure".toList]),
    ("diabetes".toList, ["diabetes".toList, "dm".toList, "diabetic".toList]),
    ("asthma".toList, ["asthma".toList]),
    ("copd".toList, ["copd".toList, "chronic obstructive".toList]),
    ("heart disease".toList,
      ["cad".toList, "coronary artery".toList, "heart disease".toList, "mi".toList,
        "myocardial infarction".toList]),
    ("atrial fibrillation".toList,
      ["afib".toList, "atrial fibrillation".toList, "a-fib".toList]),
    ("stroke".toList, ["stroke".toList, "cva".toList, "cerebrovascular".toList]),
    ("kidney disease".toList, ["ckd".toList, "kidney disease".toList, "renal".toList]),
    ("cancer".toList, ["cancer".toList, "malignancy".toList, "carcinoma".toList]) ]

/-- Embedding of Python str.title on ASCII text (second argument: whether
the previous character was a letter): uppercase a letter that follows a
non-letter, lowercase every other letter. -/
def titleL : List Char → Bool → List Char
  | [], _ => []
  | c :: t, prev =>
    (if c.isAlpha then (if prev then c.toLower else c.toUpper) else c) :: titleL t c.isAlpha

/-- Python str.title from the start of the string. -/
def pyTitle (l : List Char) : List Char := titleL l false

/-- Embedding of Python str.strip restricted to ASCII whitespace. -/
def stripL (l : List Char) : List Char :=
  ((l.dropWhile isSpaceC).reverse.dropWhile isSpaceC).reverse

/-- One lexicon entry contributes its title-cased label when any of its
synonyms occurs as a raw substring of the lowercased text (the inner
keyword loop of extract_medical_history, which breaks on the first hit). -/
def keywordHit (tl : List Char) (ck : List Char × List (List Char)) : Option (List Char) :=
  if ck.2.any (fun k => containsSub k tl) then some (pyTitle ck.1) else none

/-- The structured condition patterns of the parser, lowered. -/
def conditionPatterns : List P :=
  [ pSeqs [pLit ("history of ".toList), pCap (pPlusG isNotDotComma)],
    pSeqs [pLit ("known ".toList), pCap (pPlusG isNotDotComma)],
    pSeqs [pLit ("diagnosed with ".toList), pCap (pPlusG isNotDotComma)],
    pSeqs [pLit ("h/o ".toList), pCap (pPlusG isNotDotComma)],
    pSeqs [pLit ("pmh".toList), pPlusG isColonSpace, pCap (pPlusG isNotDotComma)] ]

/-- A structured-pattern capture is kept when non-empty and shorter than 50
characters; it is then stripped and title-cased. -/
def structuredCond (caps : Caps) : Option (List Char) :=
  match caps.head? with
  | none => none
  | some g => if g ≠ [] ∧ g.length < 50 then some (pyTitle (stripL g)) else none

/-- Order-preserving removal of duplicates keyed on the lowercased entry,
the seen-set loop of extract_medical_history. -/
def dedupLower : List (List Char) → List (List Char) → List (List Char)
  | [], _ => []
  | c :: t, seen =>
    if seen.contains (toLowerL c) then dedupLower t seen
    else c :: dedupLower t (toLowerL c :: seen)

/-- Embedding of ClinicalNoteParser.extract_medical_history: keyword hits in
lexicon order, then all structured-pattern captures, deduplicated and cut to
the first five. -/
def extract_medical_history (t0 : List Char) : List (List Char) :=
  let tl := toLowerL t0
  let kw := conditionKeywords.filterMap (keywordHit tl)
  let structured := conditionPatterns.flatMap (fun p => (findAll p tl).filterMap structuredCond)
  (dedupLower (kw ++ structured) []).take 5

/-- The symptom keyword list of the parser, in source order. -/
def symptomKeywords : List (List Char) :=
  [ "chest pain".toList, "shortness of breath".toList, "dyspnea".toList, "sob".toList,
    "nausea".toList, "vomiting".toList, "dizziness".toList, "confusion".toList,
    "headache".toList, "fever".toList, "chills".toList, "sweating".toList,
    "diaphoretic".toList, "weakness".toList, "fatigue".toList, "pain".toList,
    "cough".toList, "facial drooping".toList, "slurred speech".toList, "numbness".toList,
    "palpitations".toList, "syncope".toList, "seizure".toList ]

/-- The symptom narrative introducer patterns, lowered. -/
def symptomIntroPatterns : List P :=
  [ pSeqs [pLit ("presenting with ".toList), pCap (pPlusG isNotDot)],
    pSeqs [pLit ("complain".toList), pOpt (pLit ("s".toList)), pLit (" of ".toList),
      pCap (pPlusG isNotDot)],
    pSeqs [pLit ("report".toList), pOpt (pLit ("s".toList)), pLit (" ".toList),
      pCap (pPlusG isNotDot)],
    pSeqs [pLit ("symptom".toList), pOpt (pLit ("s".toList)), pPlusG isColonSpace,
      pCap (pPlusG isNotDot)],
    pSeqs [pLit ("chief complaint".toList), pPlusG isColonSpace, pCap (pPlusG isNotDot)] ]

/-- An introducer capture is stripped and kept when shorter than 200
characters. -/
def introHit (tl : List Char) (p : P) : Option (List Char) :=
  match searchP p tl with
  | none => none
  | some caps =>
    match caps.head? with
    | none => none
    | some g =>
      let s := stripL g
      if s.length < 200 then some s else none

/-- The found_symptoms list of extract_symptoms before the cut to 10:
matched keywords in list order, then the introducer captures in pattern
order. -/
def symptomList (t0 : List Char) : List (List Char) :=
  let tl := toLowerL t0
  (symptomKeywords.filter (fun s => containsSub s tl)) ++
    (symptomIntroPatterns.filterMap (introHit tl))

/-- Python str.join on a list of strings. -/
def joinSep (sep : List Char) : List (List Char) → List Char
  | [] => []
  | [x] => x
  | x :: y :: t => x ++ sep ++ joinSep sep (y :: t)

/-- Embedding of ClinicalNoteParser.extract_symptoms: join the first ten
entries, or the sentinel when no entry was found. -/
def extract_symptoms (t0 : List Char) : List Char :=
  match symptomList t0 with
  | [] => "No specific symptoms extracted".toList
  | l => joinSep (", ".toList) (l.take 10)

/-- Embedding of ClinicalNoteParser._calculate_confidence.  The source sets
total_fields = 7 while the counter treats the systolic/diastolic pair as a
single slot, so the counter never exceeds 6. -/
def calculate_confidence (v : VitalsE) (d : DemographicsE) : ℚ :=
  let n : ℕ :=
    (if d.age.isSome then 1 else 0) + (if d.gender.isSome then 1 else 0) +
    (if v.heart_rate.isSome then 1 else 0) +
    (if v.sbp.isSome && v.dbp.isSome then 1 else 0) +
    (if v.temp_c.isSome then 1 else 0) + (if v.spo2.isSome then 1 else 0)
  mkRat (Int.ofNat n) 7

/-- Embedding of ClinicalNoteParser._identify_missing_fields. -/
def identify_missing_fields (v : VitalsE) (d : DemographicsE) : List (List Char) :=
  (if d.age = none then ["age".toList] else []) ++
  (if d.gender = none then ["gender".toList] else []) ++
  (if v.heart_rate = none then ["heart_rate".toList] else []) ++
  (if v.sbp = none ∨ v.dbp = none then ["blood_pressure".toList] else []) ++
  (if v.temp_c = none then ["temperature".toList] else []) ++
  (if v.spo2 = none then ["spo2".toList] else [])

/-- The record returned by parse_clinical_note. -/
structure ExtractionResult where
  age : Option ℕ
  gender : Option (List Char)
  vitals : VitalsE
  medical_history : List Char
  symptoms : List Char
  extraction_confidence : ℚ
  missing_fields : List (List Char)
deriving DecidableEq, Repr

/-- Embedding of ClinicalNoteParser.parse_clinical_note. -/
def parse_clinical_note (t : List Char) : ExtractionResult :=
  let v := extract_vitals_from_note t
  let d := extract_demographics t
  let conds := extract_medical_history t
  { age := d.age,
    gender := d.gender,
    vitals := v,
    medical_history := if conds.isEmpty then "None".toList else joinSep (", ".toList) conds,
    symptoms := extract_symptoms t,
    extraction_confidence := calculate_confidence v d,
    missing_fields := identify_missing_fields v d }

end PulseAI

namespace PulseAI

/-- The Gender enumeration of the API. -/
inductive Gender
  | male
  | female
  | transgender
  | others
deriving DecidableEq, Repr

/-- The validated VitalSigns model of the API (Python floats as exact
rationals). -/
structure VitalSigns where
  heart_rate : ℚ
  sbp : ℚ
  dbp : ℚ
  temp_c : ℚ
  spo2 : ℚ
deriving DecidableEq, Repr

/-- The validated PatientInput model of the API. -/
structure PatientInput where
  age : ℤ
  gender : Gender
  vitals : VitalSigns
  symptoms : List Char
  medical_history : List Char
deriving DecidableEq, Repr

/-- Identity of the rule that fired, standing for the reason f-string of
check_rule_overrides (only the identity of the reported reason matters to
the claims; the formatted message is presentation text). -/
inductive OvReason
  | spo2Critical
  | htnCrisis
  | hypotension
  | tachycardia
  | bradycardia
  | highFever
  | infantFever
deriving DecidableEq, Repr

/-- The override dictionary returned by check_rule_overrides. -/
structure OverrideInfo where
  risk : List Char
  department : List Char
  reason : OvReason
  confidence : ℚ
deriving DecidableEq, Repr

/-- Embedding of TriageModelManager.check_rule_overrides: the if-cascade of
the seven critical-vital rules, in source order (mkRat 79 2 is the fever
threshold 39.5 of the source; the decimal literal notation for ℚ does not
kernel-compute in this Mathlib version). -/
def check_rule_overrides (p : PatientInput) : Option OverrideInfo :=
  let v := p.vitals
  if v.spo2 < 90 then
    some ⟨"High".toList, "Emergency".toList, OvReason.spo2Critical, 1⟩
  else if v.sbp > 180 then
    some ⟨"High".toList, "Emergency".toList, OvReason.htnCrisis, 1⟩
  else if v.sbp < 90 then
    some ⟨"High".toList, "Emergency".toList, OvReason.hypotension, 1⟩
  else if v.heart_rate > 120 then
    some ⟨"High".toList, "Cardiology".toList, OvReason.tachycardia, 1⟩
  else if v.heart_rate < 50 then
    some ⟨"High".toList, "Cardiology".toList, OvReason.bradycardia, 1⟩
  else if v.temp_c > mkRat 79 2 then
    some ⟨"High".toList, "Emergency".toList, OvReason.highFever, 1⟩
  else if p.age < 2 ∧ v.temp_c > 38 then
    some ⟨"High".toList, "Emergency".toList, OvReason.infantFever, 1⟩
  else none

/-- The outcome of the machine-learning step of predict (risk label, risk
class probabilities, department label), produced by the loaded scikit-learn
models; the models are external pickled data, so the whole fallible
feature-engineering-and-prediction block of predict is abstracted as an
oracle argument returning either this outcome or the message of the caught
exception. -/
structure MLOutcome where
  risk_label : List Char
  dept_label : List Char
  risk_proba : List ℚ
deriving DecidableEq, Repr

/-- The TriageResponse model, restricted to the fields the claims are about
(explanation and top_factors are presentation text assembled from the same
data). -/
structure TriageResponse where
  risk : List Char
  department : List Char
  confidence : ℚ
  override_applied : Bool
  override_reason : Option OvReason
  all_probabilities : List ℚ
deriving DecidableEq, Repr

/-- Embedding of Python max() on a non-empty list (0 on the empty list,
which predict_proba never returns). -/
def pyMax : List ℚ → ℚ
  | [] => 0
  | h :: t => t.foldl (fun a b => if a < b then b else a) h

/-- Embedding of TriageModelManager.predict: a triggered rule override is
returned with its stored confidence; otherwise the ML oracle runs, its
confidence is the maximum risk-class probability rounded to three decimals,
and a raised prediction exception is propagated as an error (the
HTTPException branch). -/
def predict (clf : PatientInput → Except (List Char) MLOutcome) (p : PatientInput) :
    Except (List Char) TriageResponse :=
  match check_rule_overrides p with
  | some o =>
    Except.ok
      ⟨o.risk, o.department, o.confidence, true, some o.reason, [1, 0, 0]⟩
  | none =>
    match clf p with
    | Except.error e => Except.error e
    | Except.ok m =>
      Except.ok
        ⟨m.risk_label, m.dept_label, round3 (pyMax m.risk_proba), false, none, m.risk_proba⟩

end PulseAI


namespace PulseAI

/-! ### General lemmas about the embedding -/

theorem isPrefixOf_iff_ex {a b : List Char} : a.isPrefixOf b = true ↔ ∃ s, b = a ++ s := by
  induction a generalizing b with
  | nil => simp [List.isPrefixOf]
  | cons x xs ih =>
    cases b with
    | nil => simp [List.isPrefixOf]
    | cons y ys =>
      simp only [List.isPrefixOf, Bool.and_eq_true, beq_iff_eq, ih, List.cons_append,
        List.cons.injEq]
      constructor
      · rintro ⟨rfl, s, rfl⟩
        exact ⟨s, rfl, rfl⟩
      · rintro ⟨s, rfl, rfl⟩
        exact ⟨rfl, s, rfl⟩

theorem containsSub_iff {a b : List Char} : containsSub a b = true ↔ ∃ u v, b = u ++ a ++ v := by
  induction b with
  | nil =>
    simp only [containsSub, List.isEmpty_iff]
    constructor
    · rintro rfl
      exact ⟨[], [], rfl⟩
    · rintro ⟨u, v, huv⟩
      rcases List.append_eq_nil.mp huv.symm with ⟨h1, h2⟩
      exact (List.append_eq_nil.mp h1).2
  | cons c t ih =>
    simp only [containsSub, Bool.or_eq_true, isPrefixOf_iff_ex, ih]
    constructor
    · rintro (⟨s, hs⟩ | ⟨u, v, huv⟩)
      · exact ⟨[], s, by simp [hs]⟩
      · exact ⟨c :: u, v, by simp [huv]⟩
    · rintro ⟨u, v, huv⟩
      cases u with
      | nil => exact Or.inl ⟨v, by simpa using huv⟩
      | cons x xs =>
        rcases List.cons.injEq .. ▸ huv with ⟨rfl, h2⟩
        exact Or.inr ⟨xs, v, by simpa using h2⟩

theorem containsSub_trans {a b c : List Char} (h1 : containsSub a b = true)
    (h2 : containsSub b c = true) : containsSub a c = true := by
  rw [containsSub_iff] at h1 h2 ⊢
  obtain ⟨u, v, rfl⟩ := h2
  obtain ⟨x, y, rfl⟩ := h1
  exact ⟨u ++ x, y ++ v, by simp⟩

theorem mkRat_ofNat_le_sixSevenths {n : ℕ} (hn : n ≤ 6) :
    mkRat (Int.ofNat n) 7 ≤ mkRat 6 7 := by
  rw [Rat.mkRat_eq_div, Rat.mkRat_eq_div]
  have h1 : ((Int.ofNat n : ℤ) : ℚ) = (n : ℚ) := by
    simp [Int.ofNat_eq_natCast]
  rw [h1]
  gcongr <;> first | exact hn | exact_mod_cast hn | norm_num

theorem mkRat_ofNat_nonneg (n : ℕ) : 0 ≤ mkRat (Int.ofNat n) 7 := by
  rw [Rat.mkRat_eq_div]
  have h1 : ((Int.ofNat n : ℤ) : ℚ) = (n : ℚ) := by
    simp [Int.ofNat_eq_natCast]
  rw [h1]
  positivity

theorem calculate_confidence_le (v : VitalsE) (d : DemographicsE) :
    calculate_confidence v d ≤ mkRat 6 7 := by
  unfold calculate_confidence
  apply mkRat_ofNat_le_sixSevenths
  split_ifs <;> norm_num

theorem calculate_confidence_nonneg (v : VitalsE) (d : DemographicsE) :
    0 ≤ calculate_confidence v d := mkRat_ofNat_nonneg _

theorem extract_vitals_fields (t : List Char) :
    extract_vitals_from_note t =
      { heart_rate := (hrLoop hrPatterns (toLowerL t)).map (fun n => ((n : ℕ) : ℚ)),
        sbp := (bpLoop bpPatterns (toLowerL t)).map (fun sd => ((sd.1 : ℕ) : ℚ)),
        dbp := (bpLoop bpPatterns (toLowerL t)).map (fun sd => ((sd.2 : ℕ) : ℚ)),
        temp_c := tempLoop tempPatterns (toLowerL t),
        spo2 := (spo2Loop spo2Patterns (toLowerL t)).map (fun n => ((n : ℕ) : ℚ)) } := by
  simp only [extract_vitals_from_note]
  cases hrLoop hrPatterns (toLowerL t) <;>
    cases bpLoop bpPatterns (toLowerL t) <;>
      cases tempLoop tempPatterns (toLowerL t) <;>
        cases spo2Loop spo2Patterns (toLowerL t) <;> rfl

theorem bpLoop_valid (ps : List P) (t : List Char) (s d : ℕ)
    (h : bpLoop ps t = some (s, d)) :
    60 ≤ s ∧ s ≤ 250 ∧ 40 ≤ d ∧ d ≤ 150 ∧ d < s := by
  induction ps with
  | nil => simp [bpLoop] at h
  | cons p ps ih =>
    rw [bpLoop] at h
    repeat' split at h
    all_goals first
      | exact ih h
      | (simp only [Option.some.injEq, Prod.mk.injEq] at h
         obtain ⟨rfl, rfl⟩ := h
         assumption)
      | simp at h

end PulseAI

namespace PulseAI

/-! ### Claim-side notions -/

/-- The fixed checklist of canonical field names, in the stable order the
specification gives. -/
def checklistSlots : List (List Char) :=
  ["age".toList, "gender".toList, "heart_rate".toList, "blood_pressure".toList,
    "temperature".toList, "spo2".toList]

/-- Whether a checklist slot is satisfied by the extraction state, per the
specification: each vital and demographic field by presence, the
blood-pressure slot by presence of both legs. -/
def slotFilled (v : VitalsE) (d : DemographicsE) (f : List Char) : Bool :=
  if f = "age".toList then d.age.isSome
  else if f = "gender".toList then d.gender.isSome
  else if f = "heart_rate".toList then v.heart_rate.isSome
  else if f = "blood_pressure".toList then v.sbp.isSome && v.dbp.isSome
  else if f = "temperature".toList then v.temp_c.isSome
  else if f = "spo2".toList then v.spo2.isSome
  else false

/-- The end-to-end scenario text of the specification. -/
def note65 : List Char :=
  ("65yo Male with HR 110, BP 160/95, Temp 38.5C, SpO2 92%. " ++
    "History of HTN and DM. Presenting with chest pain.").toList

theorem identify_missing_eq (v : VitalsE) (d : DemographicsE) :
    identify_missing_fields v d = checklistSlots.filter (fun f => !(slotFilled v d f)) := by
  obtain ⟨hr, sb, db, tc, sp⟩ := v
  obtain ⟨ag, ge⟩ := d
  cases ag <;> cases ge <;> cases hr <;> cases sb <;> cases db <;> cases tc <;> cases sp <;> rfl

/-! ### The claims -/

/-- Claim C4: for every input text, blood-pressure extraction is atomic:
extract_vitals_from_note returns sbp and dbp either both null, or both
non-null with sbp in [60, 250], dbp in [40, 150] and sbp > dbp; a matched
pair violating the invariant is discarded whole and the next pattern
tried (the discarding loop is bpLoop, whose accepted pairs always satisfy
the invariant). -/
theorem blood_pressure_atomic (t : List Char) :
    ((extract_vitals_from_note t).sbp = none ∧ (extract_vitals_from_note t).dbp = none) ∨
    (∃ s d : ℕ, (extract_vitals_from_note t).sbp = some ((s : ℕ) : ℚ) ∧
      (extract_vitals_from_note t).dbp = some ((d : ℕ) : ℚ) ∧
      60 ≤ s ∧ s ≤ 250 ∧ 40 ≤ d ∧ d ≤ 150 ∧ d < s) := by
  rw [extract_vitals_fields]
  cases hbp : bpLoop bpPatterns (toLowerL t) with
  | none => exact Or.inl ⟨rfl, rfl⟩
  | some sd =>
    obtain ⟨s, d⟩ := sd
    obtain ⟨h1, h2, h3, h4, h5⟩ := bpLoop_valid _ _ _ _ hbp
    exact Or.inr ⟨s, d, rfl, rfl, h1, h2, h3, h4, h5⟩

/-- Claim C8: for every input text, missing_fields is exactly the list of
unsatisfied checklist slots under their canonical names, in the stable
order age, gender, heart_rate, blood_pressure, temperature, spo2; the
blood_pressure entry appears whenever either leg of the pair is absent. -/
theorem missing_fields_exact (t : List Char) :
    (parse_clinical_note t).missing_fields =
      checklistSlots.filter
        (fun f => !(slotFilled (extract_vitals_from_note t) (extract_demographics t) f)) ∧
    ((extract_vitals_from_note t).sbp = none ∨ (extract_vitals_from_note t).dbp = none →
      "blood_pressure".toList ∈ (parse_clinical_note t).missing_fields) := by
  have hmain : (parse_clinical_note t).missing_fields =
      checklistSlots.filter
        (fun f => !(slotFilled (extract_vitals_from_note t) (extract_demographics t) f)) := by
    simp only [parse_clinical_note]
    exact identify_missing_eq _ _
  refine ⟨hmain, fun h => ?_⟩
  rw [hmain]
  apply List.mem_filter.mpr
  refine ⟨by decide, ?_⟩
  rcases h with h | h <;>
    simp [slotFilled, checklistSlots, h]

/-- Witness for claim C8 at the empty text, where both legs are absent. -/
theorem missing_fields_exact_witness :
    "blood_pressure".toList ∈ (parse_clinical_note []).missing_fields :=
  (missing_fields_exact []).2 (Or.inl (by decide))

end PulseAI

namespace PulseAI

/-- Claim C1 (code bug): the specification defines extraction confidence as
(satisfied slots)/6 over the fixed 6-slot checklist, reaching exactly 1.0
when all six slots are satisfied; _calculate_confidence instead divides by
total_fields = 7 while its counter treats the pressure pair as one slot and
so never exceeds 6, making the maximum 6/7 and the value (slots)/7 — the
code contradicts the 7-field enumeration in its own comment.  A fully
extracted state scores 6/7, and a one-slot parse scores 1/7, not 1/6. -/
theorem confidence_denominator_code_bug :
    (∀ v d, calculate_confidence v d ≤ mkRat 6 7) ∧
    calculate_confidence
      ⟨some 110, some 160, some 95, some (mkRat 77 2), some 92⟩
      ⟨some 65, some ("Male".toList)⟩ = mkRat 6 7 ∧
    (parse_clinical_note ("hr 80".toList)).extraction_confidence = mkRat 1 7 ∧
    mkRat 6 7 < 1 ∧ ¬ mkRat 1 7 = mkRat 1 6 :=
  ⟨calculate_confidence_le, by decide, by decide, by decide, by decide⟩

/-- Claim C7: the parser is total: every input text yields a complete
ExtractionResult with a confidence in [0, 1] (malformed numeric captures
are modelled as parse failures treated as non-matches inside the loops),
and the worst case — here the empty text — is the record with every field
null, the symptom sentinel, confidence 0 and all six slots missing. -/
theorem parser_total_worst_case :
    (∀ t, 0 ≤ (parse_clinical_note t).extraction_confidence ∧
      (parse_clinical_note t).extraction_confidence ≤ 1) ∧
    parse_clinical_note [] =
      { age := none, gender := none,
        vitals := ⟨none, none, none, none, none⟩,
        medical_history := "None".toList,
        symptoms := "No specific symptoms extracted".toList,
        extraction_confidence := 0,
        missing_fields := checklistSlots } := by
  constructor
  · intro t
    have h1 : (parse_clinical_note t).extraction_confidence =
        calculate_confidence (extract_vitals_from_note t) (extract_demographics t) := by
      simp [parse_clinical_note]
    rw [h1]
    refine ⟨calculate_confidence_nonneg _ _, le_trans (calculate_confidence_le _ _) ?_⟩
    rw [Rat.mkRat_eq_div]
    norm_num
  · decide

/-- Claim C2 (code bug): parsing the end-to-end scenario text yields
age 65, gender Male, HR 110, BP 160/95, temperature 38.5, SpO2 92, a
history containing Hypertension and Diabetes, symptoms containing chest
pain and an empty missing-field list — but the confidence is 6/7 (about
0.857), not the 1.0 the claim states, because of the denominator bug of C1. -/
theorem end_to_end_note_code_bug :
    parse_clinical_note note65 =
      { age := some 65, gender := some ("Male".toList),
        vitals := { heart_rate := some 110, sbp := some 160, dbp := some 95,
                    temp_c := some (mkRat 77 2), spo2 := some 92 },
        medical_history := "Hypertension, Diabetes, Htn And Dm".toList,
        symptoms := "chest pain, pain, chest pain".toList,
        extraction_confidence := mkRat 6 7,
        missing_fields := [] } ∧
    containsSub ("Hypertension".toList) (parse_clinical_note note65).medical_history = true ∧
    containsSub ("Diabetes".toList) (parse_clinical_note note65).medical_history = true ∧
    containsSub ("chest pain".toList) (parse_clinical_note note65).symptoms = true ∧
    ¬ mkRat 6 7 = 1 ∧ mkRat 77 2 = 38.5 ∧ mkRat 6 7 = 6 / 7 := by
  refine ⟨by decide, by decide, by decide, by decide, by decide, ?_, ?_⟩ <;>
    norm_num [Rat.mkRat_eq_div]

end PulseAI

namespace PulseAI

theorem num_eq_mul_den (q : ℚ) : (q.num : ℚ) = q * (q.den : ℚ) := by
  have hden : ((q.den : ℚ)) ≠ 0 := Nat.cast_ne_zero.mpr q.den_nz
  have h := Rat.num_div_den q
  rw [div_eq_iff hden] at h
  exact h

theorem celsiusOfF_eq (q : ℚ) : celsiusOfF q = (q - 32) * 5 / 9 := by
  unfold celsiusOfF
  rw [Rat.mkRat_eq_div]
  have hden : ((q.den : ℚ)) ≠ 0 := Nat.cast_ne_zero.mpr q.den_nz
  push_cast
  field_simp
  rw [num_eq_mul_den]
  ring

theorem roundMulHalfUp_eq (k : ℤ) (q : ℚ) : roundMulHalfUp k q = round ((k : ℚ) * q) := by
  unfold roundMulHalfUp
  rw [round_eq]
  have hden : ((q.den : ℚ)) ≠ 0 := Nat.cast_ne_zero.mpr q.den_nz
  have hq : (k : ℚ) * q + 1 / 2 =
      (((2 * (k * q.num) + (q.den : ℤ) : ℤ) : ℚ)) / (((2 * q.den : ℕ) : ℚ)) := by
    push_cast
    field_simp
    rw [num_eq_mul_den]
    ring
  rw [hq, Rat.floor_intCast_div_natCast]
  push_cast
  rfl

theorem round1_eq (q : ℚ) : round1 q = ((round (10 * q) : ℤ) : ℚ) / 10 := by
  unfold round1
  rw [Rat.mkRat_eq_div, roundMulHalfUp_eq]
  norm_num

theorem round1_celsius_bounds {q : ℚ} (h1 : 95 ≤ q) (h2 : q ≤ 107) :
    35 ≤ round1 (celsiusOfF q) ∧ round1 (celsiusOfF q) ≤ 42 := by
  have hc1 : (35 : ℚ) ≤ celsiusOfF q := by rw [celsiusOfF_eq]; linarith
  have hc2 : celsiusOfF q ≤ 125 / 3 := by rw [celsiusOfF_eq]; linarith
  have hr1 : (350 : ℤ) ≤ round (10 * celsiusOfF q) := by
    rw [round_eq]
    apply Int.le_floor.mpr
    push_cast
    linarith
  have hr2 : round (10 * celsiusOfF q) ≤ 417 := by
    rw [round_eq]
    have hx : (10 * celsiusOfF q + 1 / 2 : ℚ) < 418 := by linarith
    have hfl : ⌊(10 * celsiusOfF q + 1 / 2 : ℚ)⌋ < (418 : ℤ) :=
      Int.floor_lt.mpr (by push_cast; linarith)
    omega
  rw [round1_eq]
  constructor
  · rw [le_div_iff (by norm_num : (0 : ℚ) < 10)]
    have h350 : (350 : ℚ) ≤ ((round (10 * celsiusOfF q) : ℤ) : ℚ) := by exact_mod_cast hr1
    linarith
  · rw [div_le_iff (by norm_num : (0 : ℚ) < 10)]
    have h417 : ((round (10 * celsiusOfF q) : ℤ) : ℚ) ≤ (417 : ℚ) := by exact_mod_cast hr2
    linarith

theorem tempLoop_range (ps : List P) (t : List Char) (v : ℚ)
    (h : tempLoop ps t = some v) : 35 ≤ v ∧ v ≤ 42 := by
  induction ps with
  | nil => simp [tempLoop] at h
  | cons p ps ih =>
    rw [tempLoop] at h
    repeat' split at h
    all_goals try exact ih h
    all_goals try simp at h
    all_goals try subst h
    all_goals first
      | assumption
      | (rename_i hq95
         exact round1_celsius_bounds hq95.1 hq95.2)

/-- Counterexample to claim C5 as stated: the bare numeral 101.3 with no
unit letter and no introducer matches none of the five temperature
patterns (each requires a unit letter c, an = sign after t, or an
introducer word), so the parse yields a null temperature, not 38.5. -/
theorem temp_bare_numeral_counterexample :
    extract_vitals_from_note ("101.3".toList) = ⟨none, none, none, none, none⟩ := by
  decide

/-- Claim C5 (amended): every temperature the parser accepts lies in
[35, 42] — a captured numeral is accepted directly in the Celsius band
[35, 42], converted and rounded to one decimal from the Fahrenheit band
[95, 107], and dropped silently otherwise; the text 38.5C yields 38.5
directly, and 101.3 reached through a temperature pattern (for example
Temp 101.3) converts to exactly 38.5; a numeral in neither band (50C)
yields null with no error. -/
theorem temperature_two_band_amended :
    (∀ t v, (extract_vitals_from_note t).temp_c = some v → 35 ≤ v ∧ v ≤ 42) ∧
    (extract_vitals_from_note ("38.5C".toList)).temp_c = some (mkRat 77 2) ∧
    (extract_vitals_from_note ("Temp 101.3".toList)).temp_c = some (mkRat 77 2) ∧
    (extract_vitals_from_note ("50C".toList)).temp_c = none ∧
    mkRat 77 2 = 38.5 := by
  refine ⟨?_, by decide, by decide, by decide, by norm_num [Rat.mkRat_eq_div]⟩
  intro t v h
  rw [extract_vitals_fields] at h
  exact tempLoop_range _ _ _ h

/-- Witness for claim C5 at the Celsius text. -/
theorem temperature_two_band_witness :
    35 ≤ mkRat 77 2 ∧ mkRat 77 2 ≤ 42 :=
  temperature_two_band_amended.1 ("38.5C".toList) (mkRat 77 2) (by decide)

end PulseAI

namespace PulseAI

/-- One rule of the specification: a threshold condition on the patient and
a fixed verdict. -/
structure TriageRule where
  cond : PatientInput → Bool
  verdict : OverrideInfo

/-- The seven safety rules in the priority order the specification gives,
with risk High throughout, department Emergency for rules 1-3 and 6-7 and
Cardiology for rules 4-5 (mkRat 79 2 is the 39.5 degree threshold; the
theorem below identifies it). -/
def ruleTable : List TriageRule :=
  [ ⟨fun p => decide (p.vitals.spo2 < 90),
      ⟨"High".toList, "Emergency".toList, OvReason.spo2Critical, 1⟩⟩,
    ⟨fun p => decide (p.vitals.sbp > 180),
      ⟨"High".toList, "Emergency".toList, OvReason.htnCrisis, 1⟩⟩,
    ⟨fun p => decide (p.vitals.sbp < 90),
      ⟨"High".toList, "Emergency".toList, OvReason.hypotension, 1⟩⟩,
    ⟨fun p => decide (p.vitals.heart_rate > 120),
      ⟨"High".toList, "Cardiology".toList, OvReason.tachycardia, 1⟩⟩,
    ⟨fun p => decide (p.vitals.heart_rate < 50),
      ⟨"High".toList, "Cardiology".toList, OvReason.bradycardia, 1⟩⟩,
    ⟨fun p => decide (p.vitals.temp_c > mkRat 79 2),
      ⟨"High".toList, "Emergency".toList, OvReason.highFever, 1⟩⟩,
    ⟨fun p => decide (p.age < 2 ∧ p.vitals.temp_c > 38),
      ⟨"High".toList, "Emergency".toList, OvReason.infantFever, 1⟩⟩ ]

/-- The specification scenario: spo2 85 and systolic 190 together. -/
def pSpo2Sbp : PatientInput :=
  ⟨50, Gender.male, ⟨80, 190, 80, 37, 85⟩, "chest pain".toList, "None".toList⟩

/-- A patient breaching no rule threshold. -/
def pNoRule : PatientInput :=
  ⟨30, Gender.female, ⟨80, 120, 80, 37, 98⟩, "cough".toList, "None".toList⟩

/-- Claim C3: check_rule_overrides is first-match evaluation of the seven
rules in the fixed priority order (spo2, high BP, low BP, high HR, low HR,
fever, infant fever), returning only the verdict and reason of that rule; it
returns none exactly when no rule fires; and the spo2 85 / systolic 190
patient receives the SpO2 reason, never the blood-pressure one (the two
reasons are distinct).  The fever threshold mkRat 79 2 is exactly 39.5. -/
theorem rule_override_first_match :
    (∀ p, check_rule_overrides p =
      (ruleTable.find? (fun r => r.cond p)).map TriageRule.verdict) ∧
    (∀ p, check_rule_overrides p = none ↔ ∀ r ∈ ruleTable, r.cond p = false) ∧
    check_rule_overrides pSpo2Sbp =
      some ⟨"High".toList, "Emergency".toList, OvReason.spo2Critical, 1⟩ ∧
    ¬ OvReason.spo2Critical = OvReason.htnCrisis ∧
    mkRat 79 2 = 39.5 := by
  have hmain : ∀ p, check_rule_overrides p =
      (ruleTable.find? (fun r => r.cond p)).map TriageRule.verdict := by
    intro p
    simp only [check_rule_overrides, ruleTable]
    split_ifs <;> simp [List.find?, *]
  have hnone : ∀ p, check_rule_overrides p = none ↔
      ∀ r ∈ ruleTable, r.cond p = false := by
    intro p
    rw [hmain p]
    constructor
    · intro h r hr
      have hfind : ruleTable.find? (fun r => r.cond p) = none := by
        cases hf : ruleTable.find? (fun r => r.cond p) with
        | none => rfl
        | some x => rw [hf] at h; simp at h
      have hx := List.find?_eq_none.mp hfind r hr
      simpa using hx
    · intro h
      have hfind : ruleTable.find? (fun r => r.cond p) = none :=
        List.find?_eq_none.mpr (fun x hx => by simp [h x hx])
      rw [hfind]
      rfl
  exact ⟨hmain, hnone, by decide, by decide, by norm_num [Rat.mkRat_eq_div]⟩

/-- Witness for claim C3: the no-rule patient maps to no override. -/
theorem rule_override_first_match_witness :
    check_rule_overrides pNoRule = none :=
  (rule_override_first_match.2.1 pNoRule).mpr (by decide)

end PulseAI

namespace PulseAI

/-- Counterexample to claim C9 as stated: the sentinel literal of the code
is "No specific symptoms extracted", not "no symptoms found"; and the
result can be the empty string, because a narrative capture consisting of
whitespace strips to the empty entry — on the text `presenting with  .`
(two spaces before the period) the introducer pattern captures a lone
space, strips it to the empty string, and the join of the one-element list
is empty. -/
theorem symptom_sentinel_counterexample :
    extract_symptoms ("presenting with  .".toList) = [] ∧
    ¬ extract_symptoms [] = "no symptoms found".toList ∧
    extract_symptoms [] = "No specific symptoms extracted".toList :=
  ⟨by decide, by decide, by decide⟩

/-- Claim C9 (amended): extract_symptoms joins at most ten merged entries
with comma-space; when the merged list is empty it returns the non-empty
sentinel "No specific symptoms extracted" (the result can still be the
empty string when a narrative capture strips to an empty entry). -/
theorem symptoms_cap_sentinel_amended (t : List Char) :
    ((symptomList t).take 10).length ≤ 10 ∧
    (symptomList t = [] →
      extract_symptoms t = "No specific symptoms extracted".toList ∧
      ¬ extract_symptoms t = []) ∧
    (¬ symptomList t = [] →
      extract_symptoms t = joinSep (", ".toList) ((symptomList t).take 10)) := by
  refine ⟨?_, ?_, ?_⟩
  · simp [List.length_take]
  · intro h
    constructor
    · simp [extract_symptoms, h]
    · simp [extract_symptoms, h]
  · intro h
    cases hs : symptomList t with
    | nil => exact absurd hs h
    | cons a l => simp [extract_symptoms, hs]

/-- Witness for claim C9: the sentinel on a keyword-free text, and the
join on a text with two keyword hits. -/
theorem symptoms_cap_sentinel_witness :
    extract_symptoms ("zzz".toList) = "No specific symptoms extracted".toList ∧
    extract_symptoms ("chest pain".toList) = "chest pain, pain".toList := by
  constructor
  · exact ((symptoms_cap_sentinel_amended ("zzz".toList)).2.1 (by decide)).1
  · have h := (symptoms_cap_sentinel_amended ("chest pain".toList)).2.2 (by decide)
    rw [h]
    decide

/-- Every verdict stored in the override cascade carries confidence 1. -/
theorem override_confidence_one (p : PatientInput) (o : OverrideInfo)
    (h : check_rule_overrides p = some o) : o.confidence = 1 := by
  simp only [check_rule_overrides] at h
  split_ifs at h <;>
    first
      | exact Option.noConfusion h
      | (simp only [Option.some.injEq] at h
         rw [← h])

/-- Claim C6 (amended): every predict call returns exactly one of three
outcomes: a rule-override response with confidence exactly 1, an ML
response whose confidence is the maximum risk-class probability rounded to
three decimals, or the propagated prediction error; a failure is never
replaced by a default verdict (the error branch returns the error itself). -/
theorem predict_trichotomy_amended (clf : PatientInput → Except (List Char) MLOutcome)
    (p : PatientInput) :
    (∃ o, check_rule_overrides p = some o ∧ o.confidence = 1 ∧
      predict clf p =
        Except.ok ⟨o.risk, o.department, 1, true, some o.reason, [1, 0, 0]⟩) ∨
    (∃ e, check_rule_overrides p = none ∧ clf p = Except.error e ∧
      predict clf p = Except.error e) ∨
    (∃ m, check_rule_overrides p = none ∧ clf p = Except.ok m ∧
      predict clf p = Except.ok
        ⟨m.risk_label, m.dept_label, round3 (pyMax m.risk_proba), false, none,
          m.risk_proba⟩) := by
  cases ho : check_rule_overrides p with
  | some o =>
    left
    refine ⟨o, rfl, override_confidence_one p o ho, ?_⟩
    simp only [predict, ho]
    rw [override_confidence_one p o ho]
  | none =>
    cases hc : clf p with
    | error e =>
      right; left
      exact ⟨e, rfl, rfl, by simp only [predict, ho, hc]⟩
    | ok m =>
      right; right
      exact ⟨m, rfl, rfl, by simp only [predict, ho, hc]⟩

/-- An oracle that is certain: unanimous probability vector. -/
def clfSure : PatientInput → Except (List Char) MLOutcome :=
  fun _ => Except.ok ⟨"Low".toList, "General".toList, [1, 0, 0]⟩

/-- An oracle whose maximum probability is 0.5004, which is not a
three-decimal number. -/
def clfSplit : PatientInput → Except (List Char) MLOutcome :=
  fun _ => Except.ok ⟨"Low".toList, "General".toList, [mkRat 1251 2500, mkRat 1249 2500]⟩

/-- Counterexample to claim C6 as stated: on a patient breaching no rule,
a certain classifier produces an ML response with confidence exactly 1 and
override_applied false, so confidence 1.0 is not exclusive to overrides;
and with maximum probability 0.5004 the returned confidence is the rounded
0.5, not the maximum class probability itself. -/
theorem ml_confidence_counterexample :
    predict clfSure pNoRule =
      Except.ok ⟨"Low".toList, "General".toList, 1, false, none, [1, 0, 0]⟩ ∧
    predict clfSplit pNoRule =
      Except.ok ⟨"Low".toList, "General".toList, mkRat 1 2, false, none,
        [mkRat 1251 2500, mkRat 1249 2500]⟩ ∧
    ¬ mkRat 1 2 = pyMax [mkRat 1251 2500, mkRat 1249 2500] ∧
    check_rule_overrides pNoRule = none :=
  ⟨rfl, rfl, by decide, by decide⟩

end PulseAI

namespace PulseAI

theorem mem_take_dedupLower (a : List Char) :
    ∀ (n : ℕ) (pre post seen : List (List Char)),
      seen.contains (toLowerL a) = false →
      (∀ x ∈ pre, ¬ toLowerL x = toLowerL a) →
      pre.length < n →
      a ∈ (dedupLower (pre ++ a :: post) seen).take n := by
  intro n pre
  induction pre generalizing n with
  | nil =>
    intro post seen hseen _hdist hlen
    cases n with
    | zero => omega
    | succ m =>
      simp only [List.nil_append, dedupLower, hseen]
      simp
  | cons x xs ih =>
    intro post seen hseen hdist hlen
    cases n with
    | zero => omega
    | succ m =>
      simp only [List.cons_append, dedupLower]
      by_cases hx : seen.contains (toLowerL x) = true
      · rw [if_pos hx]
        apply ih (m + 1) post seen hseen
        · intro y hy
          exact hdist y (List.mem_cons_of_mem x hy)
        · simp only [List.length_cons] at hlen
          omega
      · rw [if_neg hx]
        rw [List.take_succ_cons]
        apply List.mem_cons_of_mem
        apply ih m post (toLowerL x :: seen)
        · have hne : ¬ toLowerL a = toLowerL x := by
            intro hcontra
            exact hdist x (List.mem_cons_self x xs) hcontra.symm
          simp only [List.contains_cons, Bool.or_eq_false_iff]
          exact ⟨by simpa using hne, hseen⟩
        · intro y hy
          exact hdist y (List.mem_cons_of_mem x hy)
        · simp only [List.length_cons] at hlen
          omega

theorem keywordHit_eq_some {tl : List Char} {e : List Char × List (List Char)}
    {x : List Char} (h : keywordHit tl e = some x) : x = pyTitle e.1 := by
  unfold keywordHit at h
  split at h
  · simp only [Option.some.injEq] at h
    exact h.symm
  · exact Option.noConfusion h

theorem keyword_label_in_history (t : List Char)
    (pre post : List (List Char × List (List Char)))
    (lab k : List Char) (syns : List (List Char))
    (hsplit : conditionKeywords = pre ++ (lab, syns) :: post)
    (hk : k ∈ syns) (hsub : containsSub k (toLowerL t) = true)
    (hlen : pre.length < 5)
    (hdist : ∀ e ∈ pre, ¬ toLowerL (pyTitle e.1) = toLowerL (pyTitle lab)) :
    pyTitle lab ∈ extract_medical_history t := by
  simp only [extract_medical_history]
  rw [hsplit, List.filterMap_append]
  have hhit : keywordHit (toLowerL t) (lab, syns) = some (pyTitle lab) := by
    unfold keywordHit
    rw [if_pos]
    apply List.any_eq_true.mpr
    exact ⟨k, hk, hsub⟩
  rw [List.filterMap_cons_some hhit]
  rw [List.append_assoc, List.cons_append]
  apply mem_take_dedupLower
  · rfl
  · intro x hx
    obtain ⟨e, he, heq⟩ := List.mem_filterMap.mp hx
    rw [keywordHit_eq_some heq]
    exact hdist e he
  · exact lt_of_le_of_lt (List.length_filterMap_le _ _) hlen

/-- Claim C10: condition detection is raw substring containment against the
lowercased text, not word-boundary matching: any text containing the word
vomiting (which contains the synonym mi of heart disease) is labelled
Heart Disease, and any text containing admitted (which contains the
synonym dm of diabetes) is labelled Diabetes; in both cases the label
survives deduplication and the cut to five entries. -/
theorem substring_condition_detection :
    (∀ t, containsSub ("vomiting".toList) (toLowerL t) = true →
      "Heart Disease".toList ∈ extract_medical_history t) ∧
    (∀ t, containsSub ("admitted".toList) (toLowerL t) = true →
      "Diabetes".toList ∈ extract_medical_history t) := by
  constructor
  · intro t h
    have hmi : containsSub ("mi".toList) (toLowerL t) = true :=
      containsSub_trans (by decide) h
    have hsplitHD : conditionKeywords =
        [ ("hypertension".toList,
            ["hypertension".toList, "htn".toList, "high blood pressure".toList]),
          ("diabetes".toList, ["diabetes".toList, "dm".toList, "diabetic".toList]),
          ("asthma".toList, ["asthma".toList]),
          ("copd".toList, ["copd".toList, "chronic obstructive".toList]) ] ++
        ("heart disease".toList,
          ["cad".toList, "coronary artery".toList, "heart disease".toList, "mi".toList,
            "myocardial infarction".toList]) ::
        [ ("atrial fibrillation".toList,
            ["afib".toList, "atrial fibrillation".toList, "a-fib".toList]),
          ("stroke".toList, ["stroke".toList, "cva".toList, "cerebrovascular".toList]),
          ("kidney disease".toList,
            ["ckd".toList, "kidney disease".toList, "renal".toList]),
          ("cancer".toList, ["cancer".toList, "malignancy".toList, "carcinoma".toList]) ] :=
      rfl
    have h1 := keyword_label_in_history t _ _ ("heart disease".toList) ("mi".toList) _
      hsplitHD (by decide) hmi (by decide) (by decide)
    have hp : pyTitle ("heart disease".toList) = "Heart Disease".toList := by decide
    rw [hp] at h1
    exact h1
  · intro t h
    have hdm : containsSub ("dm".toList) (toLowerL t) = true :=
      containsSub_trans (by decide) h
    have hsplitD : conditionKeywords =
        [ ("hypertension".toList,
            ["hypertension".toList, "htn".toList, "high blood pressure".toList]) ] ++
        ("diabetes".toList, ["diabetes".toList, "dm".toList, "diabetic".toList]) ::
        [ ("asthma".toList, ["asthma".toList]),
          ("copd".toList, ["copd".toList, "chronic obstructive".toList]),
          ("heart disease".toList,
            ["cad".toList, "coronary artery".toList, "heart disease".toList, "mi".toList,
              "myocardial infarction".toList]),
          ("atrial fibrillation".toList,
            ["afib".toList, "atrial fibrillation".toList, "a-fib".toList]),
          ("stroke".toList, ["stroke".toList, "cva".toList, "cerebrovascular".toList]),
          ("kidney disease".toList,
            ["ckd".toList, "kidney disease".toList, "renal".toList]),
          ("cancer".toList, ["cancer".toList, "malignancy".toList, "carcinoma".toList]) ] :=
      rfl
    have h1 := keyword_label_in_history t _ _ ("diabetes".toList) ("dm".toList) _
      hsplitD (by decide) hdm (by decide) (by decide)
    have hp : pyTitle ("diabetes".toList) = "Diabetes".toList := by decide
    rw [hp] at h1
    exact h1

/-- Witness for claim C10 on a concrete admission note. -/
theorem substring_condition_detection_witness :
    "Heart Disease".toList ∈
      extract_medical_history ("patient admitted after vomiting".toList) ∧
    "Diabetes".toList ∈
      extract_medical_history ("patient admitted after vomiting".toList) :=
  ⟨substring_condition_detection.1 _ (by decide),
   substring_condition_detection.2 _ (by decide)⟩

end PulseAI
